import Mathlib

/-
Verification of the sentrybot conversation loop, memory store, dispatcher and
message handling (shallow embedding of src/main.py).
-/

/-- A stored conversation memory entry: the dict built by
`SentryBot.add_to_memory` with fields role, content and timestamp
(timestamps are modelled as seconds). -/
structure MemTurn where
  role : String
  content : String
  timestamp : Nat
deriving DecidableEq, Repr

/-- Capacity of the per-key deque: `deque(maxlen=10)` in `SentryBot.__init__`. -/
def memoryMaxLen : Nat := 10

/-- `self.memory_timeout = timedelta(hours=2)`, in seconds. -/
def memory_timeout : Nat := 7200

/-- `SentryBot.add_to_memory`: append one entry to the bounded deque for the
key; `deque(maxlen=10)` drops the oldest entry when full, so the result is
the last `memoryMaxLen` elements of the extended list. -/
def add_to_memory (mem : List MemTurn) (t : MemTurn) : List MemTurn :=
  let m := mem ++ [t]
  m.drop (m.length - memoryMaxLen)

/-- The age test in `get_conversation_history`:
`now - memory[0]["timestamp"] > self.memory_timeout`. -/
def expired (now : Nat) (t : MemTurn) : Bool :=
  decide (memory_timeout < now - t.timestamp)

/-- The eviction loop of `get_conversation_history`:
`while memory and now - memory[0]["timestamp"] > self.memory_timeout:
memory.popleft()`.  It destructively pops expired entries from the front and
stops at the first non-expired entry. -/
def dropExpiredFront (now : Nat) : List MemTurn → List MemTurn
  | [] => []
  | t :: ts => if expired now t then dropExpiredFront now ts else t :: ts

/-- A content segment of a Claude response (`response.content`): either a
plain text block or a `tool_use` block with name, input and id. -/
inductive Segment where
  | text (s : String)
  | toolUse (name : String) (input : String) (id : String)
deriving DecidableEq, Repr

/-- `content.type == "tool_use"` test on a segment. -/
def Segment.isToolUse : Segment → Bool
  | .toolUse _ _ _ => true
  | .text _ => false

/-- A `tool_result` dict appended to `tool_results` in the loop body. -/
structure ToolResult where
  tool_use_id : String
  content : String
deriving DecidableEq, Repr

/-- Content of a message on the in-flight message list: a plain string (user
turns and history turns), a raw assistant response (`response.content`), or
the synthetic user turn carrying the tool results. -/
inductive MsgContent where
  | ofString (s : String)
  | ofSegments (segs : List Segment)
  | ofToolResults (rs : List ToolResult)
deriving DecidableEq, Repr

/-- One entry of the `messages` list sent to Claude. -/
structure Message where
  role : String
  content : MsgContent
deriving DecidableEq, Repr

/-- `SentryBot.get_conversation_history`: destructively evict expired entries
from the front of the stored deque, then convert the remainder to Claude
message format.  Returns the new stored deque together with the converted
messages (the Python method mutates the deque in place). -/
def get_conversation_history (now : Nat) (mem : List MemTurn) :
    List MemTurn × List Message :=
  let mem1 := dropExpiredFront now mem
  (mem1, mem1.map (fun m => ⟨m.role, MsgContent.ofString m.content⟩))

/-- `SentryBot.get_memory_key`: option 3, per user per channel. -/
def get_memory_key (authorId channelId : Nat) : String :=
  "user_" ++ toString authorId ++ "_channel_" ++ toString channelId

/-- The whole memory store `self.conversation_memory`:
`defaultdict(lambda: deque(maxlen=10))`, a map from key to deque. -/
def storeAppend (st : String → List MemTurn) (key : String) (t : MemTurn) :
    String → List MemTurn :=
  fun k => if k == key then add_to_memory (st k) t else st k

/-- Run a sequence of `(key, turn)` appends against the initially empty
default-dict store. -/
def storeRun (ops : List (String × MemTurn)) : String → List MemTurn :=
  ops.foldl (fun st op => storeAppend st op.1 op.2) (fun _ => [])

/-- The turns appended under a given key, in order. -/
def appendedTo (key : String) (ops : List (String × MemTurn)) : List MemTurn :=
  (ops.filter (fun op => op.1 == key)).map (fun op => op.2)

/-- The last `n` elements of a list, in order. -/
def lastN (n : Nat) (xs : List MemTurn) : List MemTurn :=
  xs.drop (xs.length - n)

/-- Sortedness of the stored timestamps.  Every reachable deque satisfies it,
because `add_to_memory` always stamps entries with the current
`datetime.now()` and eviction only removes entries. -/
def timestampsSorted : List MemTurn → Bool
  | [] => true
  | [_] => true
  | a :: b :: ts =>
    decide (a.timestamp ≤ b.timestamp) && timestampsSorted (b :: ts)

lemma add_to_memory_eq (ys : List MemTurn) (t : MemTurn) :
    add_to_memory ys t = (ys ++ [t]).drop ((ys ++ [t]).length - memoryMaxLen) := rfl

lemma add_to_memory_lastN (xs : List MemTurn) (t : MemTurn) :
    add_to_memory (lastN memoryMaxLen xs) t = lastN memoryMaxLen (xs ++ [t]) := by
  rw [add_to_memory_eq]
  unfold lastN
  by_cases h : xs.length ≤ memoryMaxLen
  · have h0 : xs.length - memoryMaxLen = 0 := by omega
    simp [h0]
  · have hd : (xs.drop (xs.length - memoryMaxLen)).length = memoryMaxLen := by
      rw [List.length_drop]; omega
    have h1 : (xs.drop (xs.length - memoryMaxLen) ++ [t]).length - memoryMaxLen = 1 := by
      rw [List.length_append, hd]; simp
    rw [h1]
    have h2 : (xs ++ [t]).length - memoryMaxLen = (xs.length - memoryMaxLen) + 1 := by
      rw [List.length_append]; simp; omega
    rw [h2]
    have h3 : (1 : Nat) ≤ (xs.drop (xs.length - memoryMaxLen)).length := by
      rw [hd]; unfold memoryMaxLen; omega
    rw [List.drop_append_of_le_length h3, List.drop_drop]
    have h4 : xs.length - memoryMaxLen + 1 ≤ xs.length := by omega
    rw [List.drop_append_of_le_length h4]

lemma foldl_add_to_memory_lastN (ts : List MemTurn) :
    ∀ xs : List MemTurn,
      ts.foldl add_to_memory (lastN memoryMaxLen xs) = lastN memoryMaxLen (xs ++ ts) := by
  induction ts with
  | nil => intro xs; simp [List.foldl_nil]
  | cons t ts ih =>
    intro xs
    rw [List.foldl_cons, add_to_memory_lastN, ih (xs ++ [t]), List.append_assoc]
    rfl

lemma foldl_add_to_memory_nil (ts : List MemTurn) :
    ts.foldl add_to_memory [] = lastN memoryMaxLen ts := by
  have h := foldl_add_to_memory_lastN ts []
  simpa [lastN] using h

lemma storeRun_foldl (ops : List (String × MemTurn)) :
    ∀ (st : String → List MemTurn) (key : String),
      (ops.foldl (fun st op => storeAppend st op.1 op.2) st) key =
        (appendedTo key ops).foldl add_to_memory (st key) := by
  induction ops with
  | nil => intro st key; simp [appendedTo]
  | cons op ops ih =>
    intro st key
    rw [List.foldl_cons, ih]
    by_cases h : op.1 = key
    · have hb : (op.1 == key) = true := by simp [h]
      have hb' : (key == op.1) = true := by simp [h]
      simp [appendedTo, storeAppend, hb, hb', h]
    · have hb : (op.1 == key) = false := by
        simp only [beq_eq_false_iff_ne]; exact h
      have hb' : (key == op.1) = false := by
        simp only [beq_eq_false_iff_ne]; exact fun e => h e.symm
      simp [appendedTo, storeAppend, hb, hb']

lemma dropExpiredFront_suffix (now : Nat) (mem : List MemTurn) :
    List.IsSuffix (dropExpiredFront now mem) mem := by
  induction mem with
  | nil => exact List.suffix_refl _
  | cons t ts ih =>
    by_cases h : expired now t = true
    · simp only [dropExpiredFront, h, if_true]
      exact ih.trans (List.suffix_cons t ts)
    · simp only [dropExpiredFront, h, if_false]
      exact List.suffix_refl _

/-- C4: appending any sequence of turns to the defaultdict store keeps every
key's deque at no more than 10 entries; the stored deque is exactly the last
10 turns appended under that key, in insertion order (oldest dropped on
insert); and a read returns (a projection of) a suffix of those, hence at
most the 10 most recently appended turns in insertion order. -/
theorem claim_C4 (ops : List (String × MemTurn)) (key : String) (now : Nat) :
    (storeRun ops key).length ≤ memoryMaxLen
    ∧ storeRun ops key = lastN memoryMaxLen (appendedTo key ops)
    ∧ List.IsSuffix ((get_conversation_history now (storeRun ops key)).1)
        (lastN memoryMaxLen (appendedTo key ops))
    ∧ (get_conversation_history now (storeRun ops key)).2 =
        ((get_conversation_history now (storeRun ops key)).1).map
          (fun m => ⟨m.role, MsgContent.ofString m.content⟩) := by
  have hrun : storeRun ops key = lastN memoryMaxLen (appendedTo key ops) := by
    unfold storeRun
    rw [storeRun_foldl ops _ key, foldl_add_to_memory_nil]
  refine ⟨?_, hrun, ?_, rfl⟩
  · rw [hrun]; unfold lastN
    rw [List.length_drop]; omega
  · rw [hrun]
    exact dropExpiredFront_suffix now _

lemma timestampsSorted_tail {t : MemTurn} {ts : List MemTurn}
    (h : timestampsSorted (t :: ts) = true) : timestampsSorted ts = true := by
  cases ts with
  | nil => rfl
  | cons u us =>
    simp only [timestampsSorted, Bool.and_eq_true] at h
    exact h.2

lemma timestampsSorted_head {t : MemTurn} {ts : List MemTurn}
    (h : timestampsSorted (t :: ts) = true) :
    ∀ u ∈ ts, t.timestamp ≤ u.timestamp := by
  induction ts generalizing t with
  | nil => intro u hu; cases hu
  | cons v vs ih =>
    simp only [timestampsSorted, Bool.and_eq_true, decide_eq_true_eq] at h
    intro u hu
    rcases List.mem_cons.mp hu with rfl | hu
    · exact h.1
    · exact le_trans h.1 (ih h.2 u hu)

lemma dropExpiredFront_eq_filter (now : Nat) (mem : List MemTurn)
    (hs : timestampsSorted mem = true) :
    dropExpiredFront now mem = mem.filter (fun t => !(expired now t)) := by
  induction mem with
  | nil => rfl
  | cons t ts ih =>
    cases hexp : expired now t
    · have hall : ∀ u ∈ ts, (fun t => !(expired now t)) u = true := by
        intro u hu
        have hle := timestampsSorted_head hs u hu
        have h1 : ¬ (memory_timeout < now - t.timestamp) := by
          simpa [expired] using hexp
        have h2 : now - u.timestamp ≤ now - t.timestamp :=
          Nat.sub_le_sub_left hle now
        simp only [expired, Bool.not_eq_true', decide_eq_false_iff_not]
        omega
      rw [List.filter_eq_self.mpr ?_]
      · simp [dropExpiredFront, hexp]
      · intro u hu
        rcases List.mem_cons.mp hu with rfl | hu
        · simp [hexp]
        · exact hall u hu
    · simp only [dropExpiredFront, hexp, if_true, List.filter_cons]
      simp only [hexp, Bool.not_true]
      exact ih (timestampsSorted_tail hs)

/-- C5: on a deque with sorted timestamps (true of every reachable deque,
since turns are stamped with the current time on append), the destructive
read removes exactly the turns whose age exceeds the 2-hour window — every
expired stored turn, not just a prefix.  Expired turns are absent from the
surviving deque (so from every later read of it), nothing surfaced to the
LLM is expired at call time, and reading again changes nothing. -/
theorem claim_C5 (now : Nat) (mem : List MemTurn)
    (hs : timestampsSorted mem = true) :
    dropExpiredFront now mem = mem.filter (fun t => !(expired now t))
    ∧ (∀ t ∈ (get_conversation_history now mem).1, expired now t = false)
    ∧ (∀ t ∈ mem, expired now t = true → t ∉ (get_conversation_history now mem).1)
    ∧ get_conversation_history now ((get_conversation_history now mem).1) =
        ((get_conversation_history now mem).1, (get_conversation_history now mem).2) := by
  have hfil := dropExpiredFront_eq_filter now mem hs
  have hmem1 : (get_conversation_history now mem).1 = dropExpiredFront now mem := rfl
  have hnotexp : ∀ t ∈ (get_conversation_history now mem).1, expired now t = false := by
    intro t ht
    rw [hmem1, hfil] at ht
    have := List.of_mem_filter ht
    simpa using this
  refine ⟨hfil, hnotexp, ?_, ?_⟩
  · intro t _ hexp hin
    have := hnotexp t hin
    rw [this] at hexp
    cases hexp
  · have hfix : dropExpiredFront now (dropExpiredFront now mem) =
        dropExpiredFront now mem := by
      cases hm : dropExpiredFront now mem with
      | nil => rfl
      | cons t ts =>
        have hne : expired now t = false := by
          apply hnotexp
          rw [hmem1, hm]; exact List.mem_cons_self t ts
        simp [dropExpiredFront, hne]
    show (dropExpiredFront now (dropExpiredFront now mem),
        (dropExpiredFront now (dropExpiredFront now mem)).map
          (fun m => Message.mk m.role (MsgContent.ofString m.content))) =
      (dropExpiredFront now mem,
        (dropExpiredFront now mem).map
          (fun m => Message.mk m.role (MsgContent.ofString m.content)))
    rw [hfix]

/-- C5 witness: a two-entry deque whose first entry is older than two hours
at read time; the read drops it and keeps the fresh entry. -/
theorem claim_C5_witness :
    timestampsSorted [⟨"user", "old", 0⟩, ⟨"assistant", "fresh", 5000⟩] = true
    ∧ (dropExpiredFront 9000 [⟨"user", "old", 0⟩, ⟨"assistant", "fresh", 5000⟩] =
        List.filter (fun t => !(expired 9000 t))
          [⟨"user", "old", 0⟩, ⟨"assistant", "fresh", 5000⟩]
      ∧ (∀ t ∈ (get_conversation_history 9000
            [⟨"user", "old", 0⟩, ⟨"assistant", "fresh", 5000⟩]).1,
            expired 9000 t = false)
      ∧ (∀ t ∈ ([⟨"user", "old", 0⟩, ⟨"assistant", "fresh", 5000⟩] : List MemTurn),
            expired 9000 t = true →
            t ∉ (get_conversation_history 9000
              [⟨"user", "old", 0⟩, ⟨"assistant", "fresh", 5000⟩]).1)
      ∧ get_conversation_history 9000
            ((get_conversation_history 9000
              [⟨"user", "old", 0⟩, ⟨"assistant", "fresh", 5000⟩]).1) =
          ((get_conversation_history 9000
              [⟨"user", "old", 0⟩, ⟨"assistant", "fresh", 5000⟩]).1,
            (get_conversation_history 9000
              [⟨"user", "old", 0⟩, ⟨"assistant", "fresh", 5000⟩]).2)) :=
  ⟨by decide, claim_C5 9000 _ (by decide)⟩

/-- A tool offered to Claude: `{"name": tool.name, "description":
tool.description, "input_schema": tool.inputSchema}`. -/
structure ToolDescriptor where
  name : String
  description : String
  inputSchema : String
deriving DecidableEq, Repr

/-- The keyword arguments assembled into `claude_params`; the `tools` key is
present only when the prepared tool list is non-empty (`if tools:
claude_params["tools"] = tools`). -/
structure ClaudeParams where
  model : String
  maxTokens : Nat
  messages : List Message
  system : String
  tools : Option (List ToolDescriptor)
deriving DecidableEq, Repr

/-- Build `claude_params` exactly as the loop body does. -/
def mkParams (messages : List Message) (tools : List ToolDescriptor)
    (system : String) : ClaudeParams :=
  ⟨"claude-3-5-sonnet-20241022", 1000, messages, system,
    if tools.isEmpty then none else some tools⟩

/-- The LLM endpoint `self.claude_client.messages.create(**claude_params)`
as an oracle: it yields the response content segments, or raises
(`Except.error`). -/
def LLM : Type := ClaudeParams → Except String (List Segment)

/-- The tool gateway `self.sentry_session.call_tool(name, input)` as an
oracle: on success it yields the `tool_result.content` text blocks, and
`Except.error` models a raised exception. -/
def CallTool : Type := String → String → Except String (List String)

/-- `str(tool_result.content[0].text) if tool_result.content else "No result"`. -/
def resultContentOf : List String → String
  | [] => "No result"
  | s :: _ => s

/-- One `tool_use` request extracted from a response segment. -/
structure ToolUse where
  name : String
  input : String
  id : String
deriving DecidableEq, Repr

/-- The tool requests the loop body will execute: the `tool_use` segments of
the response, kept only when `self.sentry_session` is truthy (the loop body
tests `content.type == "tool_use" and self.sentry_session`). -/
def toolUses (sessionActive : Bool) : List Segment → List ToolUse
  | [] => []
  | Segment.text _ :: rest => toolUses sessionActive rest
  | Segment.toolUse n i id :: rest =>
    if sessionActive then ⟨n, i, id⟩ :: toolUses sessionActive rest
    else toolUses sessionActive rest

/-- The `try`/`except` body around one `call_tool` invocation: a success
yields the first text block (or "No result"), a raised exception is captured
as a result whose content is `f"Error: {str(e)}"`. -/
def execToolUse (ct : CallTool) (t : ToolUse) : ToolResult :=
  match ct t.name t.input with
  | Except.ok out => ⟨t.id, resultContentOf out⟩
  | Except.error e => ⟨t.id, "Error: " ++ e⟩

/-- The `for content in response.content` loop accumulating `tool_results`:
one result per executed `tool_use` segment, in segment order. -/
def runToolCalls (ct : CallTool) (sessionActive : Bool) :
    List Segment → List ToolResult
  | [] => []
  | Segment.text _ :: rest => runToolCalls ct sessionActive rest
  | Segment.toolUse n i id :: rest =>
    if sessionActive then
      execToolUse ct ⟨n, i, id⟩ :: runToolCalls ct sessionActive rest
    else runToolCalls ct sessionActive rest

/-- The `final_text` accumulation: concatenation of the `content.text` of
every text segment, in order. -/
def finalText : List Segment → String
  | [] => ""
  | Segment.text s :: rest => s ++ finalText rest
  | Segment.toolUse _ _ _ :: rest => finalText rest

/-- `max_iterations = 10`. -/
def maxIterations : Nat := 10

/-- `return final_text if final_text else "I couldn't process that request."` -/
def fallbackMessage : String := "I couldn't process that request."

/-- `return "Sorry, the request took too many steps to complete."` -/
def tooManyStepsMessage : String :=
  "Sorry, the request took too many steps to complete."

/-- The system prompt literal in `ask_claude_with_memory`. -/
def systemPrompt : String :=
  "\n        You are a helpful assistant that can answer questions about Sentry data. You are also able to use the tools\n        provided to you to answer questions.\n\n        For your final response - please assume the user is a technically minded, experienced software engineer.  Remember\n        to be friendly and supportive - they might be stressed or frustrated as they are dealing with a bug or issue.\n\n        If the user gives you an sentry issue id, you can use that to help you understand which Sentry project the issue\n        is about - the format of a sentry issue id is \"PROJECT_NAME-ISSUE\" so from that you can determine the project\n        name when you are using the tools to look up information.\n        "

/-- Observable actions of one run: each LLM query (tagged with the value of
the `iteration` counter when it was issued, and the parameters sent) and
each `call_tool` invocation, in execution order. -/
inductive Event where
  | query (iteration : Nat) (params : ClaudeParams)
  | call (name : String) (input : String)
deriving DecidableEq, Repr

/-- Result of a run of `ask_claude_with_memory`: the returned string, the
final per-key stored memory, and the event trace. -/
structure LoopOut where
  result : String
  memory : List MemTurn
  events : List Event
deriving DecidableEq, Repr

/-- The `while iteration < max_iterations` loop of `ask_claude_with_memory`,
with the remaining iteration budget (`max_iterations - iteration`) made
structural.  `fuel = 0` is the loop exit (`iteration` reached the cap);
otherwise the body increments `iteration`, queries Claude, appends the
assistant turn, executes the requested tools sequentially, and either loops
with the results appended as one synthetic user turn or extracts the final
text, persists it when non-empty, and returns. -/
def askLoopAux (llm : LLM) (ct : CallTool) (sessionActive : Bool)
    (tools : List ToolDescriptor) (sys : String) (now : Nat) :
    Nat → Nat → List Message → List MemTurn → LoopOut
  | 0, _, _, mem => ⟨tooManyStepsMessage, mem, []⟩
  | fuel+1, iteration, messages, mem =>
    let iter1 := iteration + 1
    let params := mkParams messages tools sys
    match llm params with
    | Except.error e =>
      ⟨"Sorry, I encountered an error: " ++ e, mem, [Event.query iter1 params]⟩
    | Except.ok segs =>
      let messages1 := messages ++ [⟨"assistant", MsgContent.ofSegments segs⟩]
      let tus := toolUses sessionActive segs
      let results := runToolCalls ct sessionActive segs
      if tus.isEmpty then
        let ft := finalText segs
        ⟨if ft = "" then fallbackMessage else ft,
          if ft = "" then mem else add_to_memory mem ⟨"assistant", ft, now⟩,
          [Event.query iter1 params]⟩
      else
        let rest := askLoopAux llm ct sessionActive tools sys now
          fuel iter1 (messages1 ++ [⟨"user", MsgContent.ofToolResults results⟩]) mem
        ⟨rest.result, rest.memory,
          Event.query iter1 params ::
            (tus.map (fun t => Event.call t.name t.input) ++ rest.events)⟩

/-- Tool preparation in `ask_claude_with_memory`: `tools = []` unless
`self.sentry_session and self.sentry_tools` holds. -/
def prepareTools (sessionActive : Bool)
    (sentryTools : List ToolDescriptor) : List ToolDescriptor :=
  if sessionActive && !sentryTools.isEmpty then sentryTools else []

/-- The in-flight message list right before the loop starts: evicted stored
history converted to Claude format, plus the new user message. -/
def initialMessages (now : Nat) (mem : List MemTurn)
    (userMessage : String) : List Message :=
  (get_conversation_history now mem).2 ++
    [⟨"user", MsgContent.ofString userMessage⟩]

/-- `SentryBot.ask_claude_with_memory`, for the caller's memory key: read
(and evict) stored history, append the user message to the in-flight list,
persist the user turn immediately, then run the bounded loop. -/
def ask_claude_with_memory (llm : LLM) (ct : CallTool) (sessionActive : Bool)
    (sentryTools : List ToolDescriptor) (now : Nat) (mem : List MemTurn)
    (userMessage : String) : LoopOut :=
  let tools := prepareTools sessionActive sentryTools
  let mem1 := add_to_memory (get_conversation_history now mem).1
    ⟨"user", userMessage, now⟩
  askLoopAux llm ct sessionActive tools systemPrompt now
    maxIterations 0 (initialMessages now mem userMessage) mem1

/-- The `status` command: tool count when a session exists, otherwise the
not-connected message. -/
def status (sessionActive : Bool) (sentryTools : List ToolDescriptor) : String :=
  if sessionActive then
    "✅ Connected to Sentry with " ++ toString sentryTools.length ++
      " tools available"
  else "❌ Not connected to Sentry"

lemma runToolCalls_eq_map (ct : CallTool) (b : Bool) (segs : List Segment) :
    runToolCalls ct b segs = (toolUses b segs).map (execToolUse ct) := by
  induction segs with
  | nil => rfl
  | cons s rest ih =>
    cases s with
    | text t => simpa [runToolCalls, toolUses] using ih
    | toolUse n i id =>
      cases b with
      | false => simpa [runToolCalls, toolUses] using ih
      | true => simpa [runToolCalls, toolUses] using ih

lemma toolUses_false (segs : List Segment) : toolUses false segs = [] := by
  induction segs with
  | nil => rfl
  | cons s rest ih => cases s <;> simpa [toolUses] using ih

lemma toolUses_eq_nil_of_no_toolUse (b : Bool) (segs : List Segment)
    (h : segs.all (fun s => !(Segment.isToolUse s)) = true) :
    toolUses b segs = [] := by
  induction segs with
  | nil => rfl
  | cons s rest ih =>
    simp only [List.all_cons, Bool.and_eq_true] at h
    cases s with
    | text t => simpa [toolUses] using ih h.2
    | toolUse n i id => simp [Segment.isToolUse] at h

lemma askLoop_error (llm : LLM) (ct : CallTool) (b : Bool)
    (tools : List ToolDescriptor) (sys : String) (now : Nat)
    (fuel iteration : Nat) (messages : List Message) (mem : List MemTurn)
    (e : String) (hllm : llm (mkParams messages tools sys) = Except.error e) :
    askLoopAux llm ct b tools sys now (fuel + 1) iteration messages mem =
      ⟨"Sorry, I encountered an error: " ++ e, mem,
        [Event.query (iteration + 1) (mkParams messages tools sys)]⟩ := by
  simp only [askLoopAux, hllm]

lemma askLoop_final (llm : LLM) (ct : CallTool) (b : Bool)
    (tools : List ToolDescriptor) (sys : String) (now : Nat)
    (fuel iteration : Nat) (messages : List Message) (mem : List MemTurn)
    (segs : List Segment)
    (hllm : llm (mkParams messages tools sys) = Except.ok segs)
    (htus : toolUses b segs = []) :
    askLoopAux llm ct b tools sys now (fuel + 1) iteration messages mem =
      ⟨if finalText segs = "" then fallbackMessage else finalText segs,
        if finalText segs = "" then mem
          else add_to_memory mem ⟨"assistant", finalText segs, now⟩,
        [Event.query (iteration + 1) (mkParams messages tools sys)]⟩ := by
  simp only [askLoopAux, hllm, htus, List.isEmpty_nil, if_true]

lemma askLoop_step (llm : LLM) (ct : CallTool) (b : Bool)
    (tools : List ToolDescriptor) (sys : String) (now : Nat)
    (fuel iteration : Nat) (messages : List Message) (mem : List MemTurn)
    (segs : List Segment)
    (hllm : llm (mkParams messages tools sys) = Except.ok segs)
    (htus : toolUses b segs ≠ []) :
    askLoopAux llm ct b tools sys now (fuel + 1) iteration messages mem =
      (let rest := askLoopAux llm ct b tools sys now fuel (iteration + 1)
        (messages ++ [⟨"assistant", MsgContent.ofSegments segs⟩,
          ⟨"user", MsgContent.ofToolResults (runToolCalls ct b segs)⟩]) mem;
      ⟨rest.result, rest.memory,
        Event.query (iteration + 1) (mkParams messages tools sys) ::
          ((toolUses b segs).map (fun t => Event.call t.name t.input) ++
            rest.events)⟩) := by
  have hne : (toolUses b segs).isEmpty = false := by
    cases h : toolUses b segs with
    | nil => exact absurd h htus
    | cons x xs => rfl
  simp only [askLoopAux, hllm, hne, Bool.false_eq_true, if_false,
    List.append_assoc, List.cons_append, List.nil_append]

lemma execToolUse_id (ct : CallTool) (t : ToolUse) :
    (execToolUse ct t).tool_use_id = t.id := by
  unfold execToolUse
  cases ct t.name t.input <;> rfl

/-- C1 (amended: the gateway session must be present — the loop body tests
`content.type == "tool_use" and self.sentry_session`, so with no session the
tool requests are skipped): when the session is present and a response has
k ≥ 1 tool-call segments, the loop performs exactly one `call_tool` per
request, sequentially in emission order (a raised tool exception becomes an
error result, never propagates), appends all k results as one synthetic
user turn, and only after all of them issues the next LLM query. -/
theorem claim_C1 (llm : LLM) (ct : CallTool) (tools : List ToolDescriptor)
    (sys : String) (now : Nat) (fuel iteration : Nat)
    (messages : List Message) (mem : List MemTurn) (segs : List Segment)
    (hllm : llm (mkParams messages tools sys) = Except.ok segs)
    (hk : toolUses true segs ≠ []) :
    runToolCalls ct true segs = (toolUses true segs).map (execToolUse ct)
    ∧ (runToolCalls ct true segs).length = (toolUses true segs).length
    ∧ (runToolCalls ct true segs).map (fun r => r.tool_use_id) =
        (toolUses true segs).map (fun t => t.id)
    ∧ askLoopAux llm ct true tools sys now (fuel + 1) iteration messages mem =
        (let rest := askLoopAux llm ct true tools sys now fuel (iteration + 1)
          (messages ++ [⟨"assistant", MsgContent.ofSegments segs⟩,
            ⟨"user", MsgContent.ofToolResults (runToolCalls ct true segs)⟩]) mem;
        ⟨rest.result, rest.memory,
          Event.query (iteration + 1) (mkParams messages tools sys) ::
            ((toolUses true segs).map (fun t => Event.call t.name t.input) ++
              rest.events)⟩) := by
  refine ⟨runToolCalls_eq_map ct true segs, ?_, ?_, ?_⟩
  · rw [runToolCalls_eq_map]; simp
  · rw [runToolCalls_eq_map]
    simp [List.map_map, Function.comp_def, execToolUse_id]
  · exact askLoop_step llm ct true tools sys now fuel iteration messages mem
      segs hllm hk

/-- LLM oracle that always requests one `get_issue` tool call. -/
def llmToolOnce : LLM :=
  fun _ => Except.ok [Segment.toolUse "get_issue" "PROJ-123" "tu1"]

/-- LLM oracle that always answers with a fixed final text. -/
def llmTextOnly : LLM :=
  fun _ => Except.ok [Segment.text "The issue is already resolved."]

/-- LLM oracle that always answers with a single empty text segment. -/
def llmEmptyText : LLM :=
  fun _ => Except.ok [Segment.text ""]

/-- LLM oracle that always raises. -/
def llmRaises : LLM := fun _ => Except.error "boom"

/-- Tool oracle that always succeeds. -/
def ctOk : CallTool := fun _ _ => Except.ok ["Issue resolved"]

set_option maxRecDepth 40000 in
/-- C1 counterexample: with no gateway session, a response containing one
tool-call segment leads to zero `call_tool` invocations — the trace of the
run is a single query event with no call events, refuting the unconditional
claim. -/
theorem claim_C1_counterexample :
    llmToolOnce (mkParams [] [] systemPrompt) =
      Except.ok [Segment.toolUse "get_issue" "PROJ-123" "tu1"]
    ∧ (askLoopAux llmToolOnce ctOk false [] systemPrompt 0 10 0 [] []).events =
        [Event.query 1 (mkParams [] [] systemPrompt)] := by
  exact ⟨rfl, by decide⟩

/-- C1 witness: a concrete session-present run with one tool-call segment. -/
theorem claim_C1_witness :
    llmToolOnce (mkParams [] [] systemPrompt) =
      Except.ok [Segment.toolUse "get_issue" "PROJ-123" "tu1"]
    ∧ toolUses true [Segment.toolUse "get_issue" "PROJ-123" "tu1"] ≠ []
    ∧ (runToolCalls ctOk true [Segment.toolUse "get_issue" "PROJ-123" "tu1"] =
        (toolUses true [Segment.toolUse "get_issue" "PROJ-123" "tu1"]).map
          (execToolUse ctOk)
      ∧ (runToolCalls ctOk true
          [Segment.toolUse "get_issue" "PROJ-123" "tu1"]).length =
          (toolUses true [Segment.toolUse "get_issue" "PROJ-123" "tu1"]).length
      ∧ (runToolCalls ctOk true
          [Segment.toolUse "get_issue" "PROJ-123" "tu1"]).map
            (fun r => r.tool_use_id) =
          (toolUses true [Segment.toolUse "get_issue" "PROJ-123" "tu1"]).map
            (fun t => t.id)
      ∧ askLoopAux llmToolOnce ctOk true [] systemPrompt 0 (9 + 1) 0 [] [] =
          (let rest := askLoopAux llmToolOnce ctOk true [] systemPrompt 0 9 (0 + 1)
            ([] ++ [⟨"assistant", MsgContent.ofSegments
                [Segment.toolUse "get_issue" "PROJ-123" "tu1"]⟩,
              ⟨"user", MsgContent.ofToolResults (runToolCalls ctOk true
                [Segment.toolUse "get_issue" "PROJ-123" "tu1"])⟩]) [];
          ⟨rest.result, rest.memory,
            Event.query (0 + 1) (mkParams [] [] systemPrompt) ::
              ((toolUses true [Segment.toolUse "get_issue" "PROJ-123" "tu1"]).map
                (fun t => Event.call t.name t.input) ++ rest.events)⟩)) :=
  ⟨rfl, by decide,
    claim_C1 llmToolOnce ctOk [] systemPrompt 0 9 0 [] []
      [Segment.toolUse "get_issue" "PROJ-123" "tu1"] rfl (by decide)⟩

/-- C2: a response with zero tool-call segments ends the loop after exactly
one LLM query for that response; the concatenated text segments are
returned, persisted as an assistant turn when non-empty; when empty the
fixed fallback string is returned and nothing is persisted. -/
theorem claim_C2 (llm : LLM) (ct : CallTool) (b : Bool)
    (tools : List ToolDescriptor) (sys : String) (now : Nat)
    (fuel iteration : Nat) (messages : List Message) (mem : List MemTurn)
    (segs : List Segment)
    (hllm : llm (mkParams messages tools sys) = Except.ok segs)
    (hno : segs.all (fun s => !(Segment.isToolUse s)) = true) :
    askLoopAux llm ct b tools sys now (fuel + 1) iteration messages mem =
      ⟨if finalText segs = "" then fallbackMessage else finalText segs,
        if finalText segs = "" then mem
          else add_to_memory mem ⟨"assistant", finalText segs, now⟩,
        [Event.query (iteration + 1) (mkParams messages tools sys)]⟩ :=
  askLoop_final llm ct b tools sys now fuel iteration messages mem segs hllm
    (toolUses_eq_nil_of_no_toolUse b segs hno)

/-- C2 witness: a concrete text-only response. -/
theorem claim_C2_witness :
    llmTextOnly (mkParams [] [] systemPrompt) =
      Except.ok [Segment.text "The issue is already resolved."]
    ∧ ([Segment.text "The issue is already resolved."].all
        (fun s => !(Segment.isToolUse s)) = true)
    ∧ askLoopAux llmTextOnly ctOk true [] systemPrompt 7 (9 + 1) 0 [] [] =
        ⟨if finalText [Segment.text "The issue is already resolved."] = ""
            then fallbackMessage
            else finalText [Segment.text "The issue is already resolved."],
          if finalText [Segment.text "The issue is already resolved."] = ""
            then []
            else add_to_memory [] ⟨"assistant",
              finalText [Segment.text "The issue is already resolved."], 7⟩,
          [Event.query (0 + 1) (mkParams [] [] systemPrompt)]⟩ :=
  ⟨rfl, by decide,
    claim_C2 llmTextOnly ctOk true [] systemPrompt 7 9 0 [] []
      [Segment.text "The issue is already resolved."] rfl (by decide)⟩

/-- C10 (amended: the fallback is returned exactly when the concatenation of
the text segments is empty, not only when no text segment exists): with no
gateway session every tool-call segment is ignored, no tool runs, the
response is final in that same iteration, and the loop returns the
concatenated text segments, or the fixed fallback string when that
concatenation is empty. -/
theorem claim_C10 (llm : LLM) (ct : CallTool) (tools : List ToolDescriptor)
    (sys : String) (now : Nat) (fuel iteration : Nat)
    (messages : List Message) (mem : List MemTurn) (segs : List Segment)
    (hllm : llm (mkParams messages tools sys) = Except.ok segs) :
    toolUses false segs = []
    ∧ runToolCalls ct false segs = []
    ∧ askLoopAux llm ct false tools sys now (fuel + 1) iteration messages mem =
        ⟨if finalText segs = "" then fallbackMessage else finalText segs,
          if finalText segs = "" then mem
            else add_to_memory mem ⟨"assistant", finalText segs, now⟩,
          [Event.query (iteration + 1) (mkParams messages tools sys)]⟩ := by
  refine ⟨toolUses_false segs, ?_, ?_⟩
  · rw [runToolCalls_eq_map, toolUses_false]; rfl
  · exact askLoop_final llm ct false tools sys now fuel iteration messages mem
      segs hllm (toolUses_false segs)

/-- C10 counterexample: a session-absent response consisting of one empty
text segment.  The claim predicts the returned value is the concatenation of
the text segments (the response does contain a text segment), but the code
returns the fixed fallback string instead. -/
theorem claim_C10_counterexample :
    llmEmptyText (mkParams [] [] systemPrompt) = Except.ok [Segment.text ""]
    ∧ Segment.text "" ∈ [Segment.text ""]
    ∧ finalText [Segment.text ""] = ""
    ∧ (askLoopAux llmEmptyText ctOk false [] systemPrompt 0 10 0 [] []).result =
        fallbackMessage
    ∧ (askLoopAux llmEmptyText ctOk false [] systemPrompt 0 10 0 [] []).result ≠
        finalText [Segment.text ""] := by
  refine ⟨rfl, by decide, rfl, by decide, by decide⟩

/-- C10 witness: a session-absent run whose response requests a tool call
anyway; the request is ignored and the (empty) text concatenation rule
applies. -/
theorem claim_C10_witness :
    llmToolOnce (mkParams [] [] systemPrompt) =
      Except.ok [Segment.toolUse "get_issue" "PROJ-123" "tu1"]
    ∧ (toolUses false [Segment.toolUse "get_issue" "PROJ-123" "tu1"] = []
      ∧ runToolCalls ctOk false [Segment.toolUse "get_issue" "PROJ-123" "tu1"] = []
      ∧ askLoopAux llmToolOnce ctOk false [] systemPrompt 0 (9 + 1) 0 [] [] =
          ⟨if finalText [Segment.toolUse "get_issue" "PROJ-123" "tu1"] = ""
              then fallbackMessage
              else finalText [Segment.toolUse "get_issue" "PROJ-123" "tu1"],
            if finalText [Segment.toolUse "get_issue" "PROJ-123" "tu1"] = ""
              then []
              else add_to_memory [] ⟨"assistant",
                finalText [Segment.toolUse "get_issue" "PROJ-123" "tu1"], 0⟩,
            [Event.query (0 + 1) (mkParams [] [] systemPrompt)]⟩) :=
  ⟨rfl,
    claim_C10 llmToolOnce ctOk [] systemPrompt 0 9 0 [] []
      [Segment.toolUse "get_issue" "PROJ-123" "tu1"] rfl⟩

/-- The values of the `iteration` counter at which LLM queries were issued,
in order of occurrence in the trace. -/
def queryIters : List Event → List Nat
  | [] => []
  | Event.query it _ :: rest => it :: queryIters rest
  | Event.call _ _ :: rest => queryIters rest

lemma queryIters_calls_append (tus : List ToolUse) (es : List Event) :
    queryIters ((tus.map (fun t => Event.call t.name t.input)) ++ es) =
      queryIters es := by
  induction tus with
  | nil => rfl
  | cons t ts ih => simpa [queryIters] using ih

lemma askLoop_queryIters (llm : LLM) (ct : CallTool) (b : Bool)
    (tools : List ToolDescriptor) (sys : String) (now : Nat) :
    ∀ (fuel iteration : Nat) (messages : List Message) (mem : List MemTurn),
      ∃ q, q ≤ fuel ∧
        queryIters (askLoopAux llm ct b tools sys now
          fuel iteration messages mem).events =
          List.range' (iteration + 1) q := by
  intro fuel
  induction fuel with
  | zero =>
    intro it ms mem
    exact ⟨0, Nat.le_refl 0, by simp [askLoopAux, queryIters]⟩
  | succ f ih =>
    intro it ms mem
    cases hllm : llm (mkParams ms tools sys) with
    | error e =>
      rw [askLoop_error llm ct b tools sys now f it ms mem e hllm]
      exact ⟨1, by omega, by simp [queryIters]⟩
    | ok segs =>
      by_cases htus : toolUses b segs = []
      · rw [askLoop_final llm ct b tools sys now f it ms mem segs hllm htus]
        exact ⟨1, by omega, by simp [queryIters]⟩
      · rw [askLoop_step llm ct b tools sys now f it ms mem segs hllm htus]
        obtain ⟨q, hq, heq⟩ := ih (it + 1)
          (ms ++ [⟨"assistant", MsgContent.ofSegments segs⟩,
            ⟨"user", MsgContent.ofToolResults (runToolCalls ct b segs)⟩]) mem
        refine ⟨q + 1, by omega, ?_⟩
        simp only [queryIters, queryIters_calls_append, heq, List.range'_succ]

lemma askLoop_cap (llm : LLM) (ct : CallTool) (b : Bool)
    (tools : List ToolDescriptor) (sys : String) (now : Nat)
    (h : ∀ p, ∃ segs, llm p = Except.ok segs ∧ toolUses b segs ≠ []) :
    ∀ (fuel iteration : Nat) (messages : List Message) (mem : List MemTurn),
      (askLoopAux llm ct b tools sys now fuel iteration messages mem).result =
          tooManyStepsMessage
      ∧ (askLoopAux llm ct b tools sys now fuel iteration messages mem).memory =
          mem
      ∧ (queryIters (askLoopAux llm ct b tools sys now
          fuel iteration messages mem).events).length = fuel := by
  intro fuel
  induction fuel with
  | zero => intro it ms mem; exact ⟨rfl, rfl, rfl⟩
  | succ f ih =>
    intro it ms mem
    obtain ⟨segs, hok, hne⟩ := h (mkParams ms tools sys)
    rw [askLoop_step llm ct b tools sys now f it ms mem segs hok hne]
    obtain ⟨h1, h2, h3⟩ := ih (it + 1)
      (ms ++ [⟨"assistant", MsgContent.ofSegments segs⟩,
        ⟨"user", MsgContent.ofToolResults (runToolCalls ct b segs)⟩]) mem
    refine ⟨h1, h2, ?_⟩
    simp only [queryIters, queryIters_calls_append, List.length_cons, h3]

/-- C6: if the LLM query raises, the loop stops immediately with the single
generic apologetic error string (no retry, no further query); at the whole
`ask_claude_with_memory` level a failure at the first query leaves exactly
the user turn persisted and no assistant turn. -/
theorem claim_C6 (llm : LLM) (ct : CallTool) (b : Bool)
    (stools : List ToolDescriptor) (now : Nat) (e : String) :
    (∀ (fuel iteration : Nat) (messages : List Message) (mem1 : List MemTurn),
      llm (mkParams messages (prepareTools b stools) systemPrompt) =
          Except.error e →
      askLoopAux llm ct b (prepareTools b stools) systemPrompt now
          (fuel + 1) iteration messages mem1 =
        ⟨"Sorry, I encountered an error: " ++ e, mem1,
          [Event.query (iteration + 1)
            (mkParams messages (prepareTools b stools) systemPrompt)]⟩)
    ∧ (∀ (mem : List MemTurn) (userMessage : String),
      llm (mkParams (initialMessages now mem userMessage)
          (prepareTools b stools) systemPrompt) = Except.error e →
      ask_claude_with_memory llm ct b stools now mem userMessage =
        ⟨"Sorry, I encountered an error: " ++ e,
          add_to_memory (get_conversation_history now mem).1
            ⟨"user", userMessage, now⟩,
          [Event.query 1 (mkParams (initialMessages now mem userMessage)
            (prepareTools b stools) systemPrompt)]⟩) := by
  constructor
  · intro fuel iteration messages mem1 hllm
    exact askLoop_error llm ct b (prepareTools b stools) systemPrompt now
      fuel iteration messages mem1 e hllm
  · intro mem userMessage hllm
    show askLoopAux llm ct b (prepareTools b stools) systemPrompt now
        maxIterations 0 (initialMessages now mem userMessage)
        (add_to_memory (get_conversation_history now mem).1
          ⟨"user", userMessage, now⟩) = _
    rw [show maxIterations = 9 + 1 from rfl]
    exact askLoop_error llm ct b (prepareTools b stools) systemPrompt now
      9 0 (initialMessages now mem userMessage)
      (add_to_memory (get_conversation_history now mem).1
        ⟨"user", userMessage, now⟩) e hllm

/-- C6 witness: a run whose very first LLM query raises. -/
theorem claim_C6_witness :
    llmRaises (mkParams (initialMessages 0 [] "hi")
        (prepareTools true []) systemPrompt) = Except.error "boom"
    ∧ ask_claude_with_memory llmRaises ctOk true [] 0 [] "hi" =
        ⟨"Sorry, I encountered an error: " ++ "boom",
          add_to_memory (get_conversation_history 0 []).1 ⟨"user", "hi", 0⟩,
          [Event.query 1 (mkParams (initialMessages 0 [] "hi")
            (prepareTools true []) systemPrompt)]⟩ :=
  ⟨rfl, (claim_C6 llmRaises ctOk true [] 0 "boom").2 [] "hi" rfl⟩

/-- C3: in every run the `iteration` values stamped on the successive LLM
queries form the strictly increasing sequence 1, 2, ..., q for some q ≤ 10,
so at most 10 queries are issued; and if every response requests tool calls
the run returns the fixed cap-exceeded message after exactly 10 queries,
leaving only the user turn persisted (the cap message is not written to
memory). -/
theorem claim_C3 (llm : LLM) (ct : CallTool) (b : Bool)
    (stools : List ToolDescriptor) (now : Nat) (mem : List MemTurn)
    (userMessage : String) :
    (∃ q, q ≤ maxIterations ∧
      queryIters (ask_claude_with_memory llm ct b stools now mem
        userMessage).events = List.range' 1 q
      ∧ List.Pairwise (· < ·)
          (queryIters (ask_claude_with_memory llm ct b stools now mem
            userMessage).events))
    ∧ ((∀ p, ∃ segs, llm p = Except.ok segs ∧ toolUses b segs ≠ []) →
      (ask_claude_with_memory llm ct b stools now mem userMessage).result =
          tooManyStepsMessage
      ∧ (ask_claude_with_memory llm ct b stools now mem userMessage).memory =
          add_to_memory (get_conversation_history now mem).1
            ⟨"user", userMessage, now⟩
      ∧ (queryIters (ask_claude_with_memory llm ct b stools now mem
          userMessage).events).length = maxIterations) := by
  constructor
  · obtain ⟨q, hq, heq⟩ := askLoop_queryIters llm ct b (prepareTools b stools)
      systemPrompt now maxIterations 0 (initialMessages now mem userMessage)
      (add_to_memory (get_conversation_history now mem).1
        ⟨"user", userMessage, now⟩)
    have heq2 : queryIters (ask_claude_with_memory llm ct b stools now mem
        userMessage).events = List.range' 1 q := heq
    refine ⟨q, hq, heq2, ?_⟩
    rw [heq2]
    exact List.pairwise_lt_range' 1 q
  · intro h
    obtain ⟨h1, h2, h3⟩ := askLoop_cap llm ct b (prepareTools b stools)
      systemPrompt now h maxIterations 0 (initialMessages now mem userMessage)
      (add_to_memory (get_conversation_history now mem).1
        ⟨"user", userMessage, now⟩)
    exact ⟨h1, h2, h3⟩

/-- C3 witness: an LLM oracle that always requests a tool call drives the
run to the 10-query cap. -/
theorem claim_C3_witness :
    (∀ p, ∃ segs, llmToolOnce p = Except.ok segs ∧ toolUses true segs ≠ [])
    ∧ ((ask_claude_with_memory llmToolOnce ctOk true [] 0 [] "hi").result =
          tooManyStepsMessage
      ∧ (ask_claude_with_memory llmToolOnce ctOk true [] 0 [] "hi").memory =
          add_to_memory (get_conversation_history 0 []).1 ⟨"user", "hi", 0⟩
      ∧ (queryIters (ask_claude_with_memory llmToolOnce ctOk true [] 0 []
          "hi").events).length = maxIterations) :=
  have hall : ∀ p, ∃ segs, llmToolOnce p = Except.ok segs ∧
      toolUses true segs ≠ [] :=
    fun _ => ⟨[Segment.toolUse "get_issue" "PROJ-123" "tu1"], rfl, by decide⟩
  ⟨hall, (claim_C3 llmToolOnce ctOk true [] 0 [] "hi").2 hall⟩

/-- The Discord transport limit used by the `ask` command and the mention
handler: `if len(response) > 2000: for i in range(0, len(response), 2000):
... response[i:i+2000]`. -/
def chunkLimit : Nat := 2000

/-- Number of iterations of `range(0, len, 2000)`, i.e. the chunk count. -/
def numChunks (len : Nat) : Nat := (len + chunkLimit - 1) / chunkLimit

/-- The response dispatcher of the `ask` command: a response longer than the
limit is sent as the successive slices `response[i:i+2000]` for
`i in range(0, len(response), 2000)`; otherwise it is sent as one message. -/
def dispatch (s : String) : List String :=
  if s.length > chunkLimit then
    (List.range (numChunks s.length)).map
      (fun k => String.mk ((s.data.drop (k * chunkLimit)).take chunkLimit))
  else [s]

lemma string_length_mk (cs : List Char) : (String.mk cs).length = cs.length := rfl

lemma string_data_append (a b : String) : (a ++ b).data = a.data ++ b.data := rfl

lemma string_eq_of_data (a b : String) (h : a.data = b.data) : a = b := by
  cases a; cases b; exact congrArg String.mk h

lemma flatten_chunks (cs : List Char) :
    ((List.range (numChunks cs.length)).map
      (fun k => (cs.drop (k * chunkLimit)).take chunkLimit)).flatten = cs := by
  by_cases h0 : cs.length = 0
  · have hz : numChunks cs.length = 0 := by rw [h0]; rfl
    rw [hz]
    simp only [List.range_zero, List.map_nil, List.flatten_nil]
    exact (List.length_eq_zero.mp h0).symm
  · by_cases h1 : cs.length ≤ chunkLimit
    · have hn : numChunks cs.length = 1 := by
        unfold numChunks chunkLimit
        unfold chunkLimit at h1
        omega
      have hr1 : List.range 1 = [0] := by decide
      rw [hn, hr1]
      simp only [List.map_cons, List.map_nil,
        List.flatten_cons, List.flatten_nil, List.append_nil, Nat.zero_mul,
        List.drop_zero]
      exact List.take_of_length_le h1
    · have hlen : (cs.drop chunkLimit).length = cs.length - chunkLimit :=
        List.length_drop chunkLimit cs
      have hrec := flatten_chunks (cs.drop chunkLimit)
      have hn : numChunks cs.length =
          numChunks ((cs.drop chunkLimit).length) + 1 := by
        rw [hlen]
        unfold numChunks chunkLimit
        unfold chunkLimit at h1
        omega
      rw [hn, List.range_succ_eq_map]
      simp only [List.map_cons, List.flatten_cons, Nat.zero_mul,
        List.drop_zero, List.map_map]
      have hfun : ((fun k => (cs.drop (k * chunkLimit)).take chunkLimit) ∘
          Nat.succ) =
          (fun k => ((cs.drop chunkLimit).drop (k * chunkLimit)).take
            chunkLimit) := by
        funext k
        show (cs.drop (Nat.succ k * chunkLimit)).take chunkLimit = _
        rw [List.drop_drop]
        congr 2
        unfold chunkLimit
        omega
      rw [hfun, hrec, List.take_append_drop]
termination_by cs.length
decreasing_by
  rw [List.length_drop]
  unfold chunkLimit at *
  omega

lemma string_foldl_append_data (l : List String) :
    ∀ a : String, (l.foldl (fun r s => r ++ s) a).data =
      a.data ++ (l.map String.data).flatten := by
  induction l with
  | nil => intro a; simp
  | cons s l ih =>
    intro a
    rw [List.foldl_cons, ih (a ++ s)]
    simp [string_data_append]

lemma string_join_data (l : List String) :
    (String.join l).data = (l.map String.data).flatten := by
  show (l.foldl (fun r s => r ++ s) "").data = _
  rw [string_foldl_append_data]
  rfl

/-- C7: the dispatcher splits any response into ordered chunks of at most
2000 characters whose concatenation is the original text; a text of at most
2000 characters is sent as exactly one message; a 4500-character text is
sent as exactly 3 chunks of lengths 2000, 2000, 500. -/
theorem claim_C7 (s : String) :
    (∀ c ∈ dispatch s, c.length ≤ chunkLimit)
    ∧ String.join (dispatch s) = s
    ∧ (s.length ≤ chunkLimit → dispatch s = [s])
    ∧ (s.length = 4500 →
        (dispatch s).map String.length = [chunkLimit, chunkLimit, 500]) := by
  refine ⟨?_, ?_, ?_, ?_⟩
  · intro c hc
    unfold dispatch at hc
    by_cases h : s.length > chunkLimit
    · rw [if_pos h] at hc
      obtain ⟨k, _, rfl⟩ := List.mem_map.mp hc
      rw [string_length_mk, List.length_take]
      exact Nat.min_le_left _ _
    · rw [if_neg h] at hc
      rcases List.mem_singleton.mp hc with rfl
      omega
  · apply string_eq_of_data
    rw [string_join_data]
    unfold dispatch
    by_cases h : s.length > chunkLimit
    · rw [if_pos h]
      rw [List.map_map]
      have hfun : (String.data ∘ fun k =>
          String.mk ((s.data.drop (k * chunkLimit)).take chunkLimit)) =
          (fun k => (s.data.drop (k * chunkLimit)).take chunkLimit) := rfl
      rw [hfun]
      have hl : s.length = s.data.length := rfl
      rw [hl]
      exact flatten_chunks s.data
    · rw [if_neg h]
      simp [string_data_append]
  · intro h
    unfold dispatch
    rw [if_neg (by omega)]
  · intro h
    unfold dispatch
    rw [if_pos (by rw [h]; unfold chunkLimit; omega)]
    have hn : numChunks s.length = 3 := by rw [h]; rfl
    have hr : List.range 3 = [0, 1, 2] := by decide
    have hd : s.data.length = 4500 := h
    rw [hn, hr]
    simp only [List.map_cons, List.map_nil, string_length_mk,
      List.length_take, List.length_drop, hd]
    unfold chunkLimit
    norm_num

/-- C7 witness: a concrete short text is sent as one message, and a concrete
4500-character text yields chunk lengths 2000, 2000, 500. -/
theorem claim_C7_witness :
    (("hi" : String).length ≤ chunkLimit ∧ dispatch "hi" = ["hi"])
    ∧ ((String.mk (List.replicate 4500 'x')).length = 4500
      ∧ (dispatch (String.mk (List.replicate 4500 'x'))).map String.length =
          [chunkLimit, chunkLimit, 500]) :=
  ⟨⟨by decide, (claim_C7 "hi").2.2.1 (by decide)⟩,
    ⟨by rw [string_length_mk, List.length_replicate],
      (claim_C7 _).2.2.2 (by rw [string_length_mk, List.length_replicate])⟩⟩

lemma askLoop_query_tools (llm : LLM) (ct : CallTool) (b : Bool)
    (tools : List ToolDescriptor) (sys : String) (now : Nat) :
    ∀ (fuel iteration : Nat) (messages : List Message) (mem : List MemTurn)
      (it : Nat) (p : ClaudeParams),
      Event.query it p ∈
        (askLoopAux llm ct b tools sys now fuel iteration messages mem).events →
      ∃ ms, p = mkParams ms tools sys := by
  intro fuel
  induction fuel with
  | zero =>
    intro iter ms mem it p h
    simp [askLoopAux] at h
  | succ f ih =>
    intro iter ms mem it p h
    cases hllm : llm (mkParams ms tools sys) with
    | error e =>
      rw [askLoop_error llm ct b tools sys now f iter ms mem e hllm] at h
      simp only [List.mem_singleton, Event.query.injEq] at h
      exact ⟨ms, h.2⟩
    | ok segs =>
      by_cases htus : toolUses b segs = []
      · rw [askLoop_final llm ct b tools sys now f iter ms mem segs hllm htus] at h
        simp only [List.mem_singleton, Event.query.injEq] at h
        exact ⟨ms, h.2⟩
      · rw [askLoop_step llm ct b tools sys now f iter ms mem segs hllm htus] at h
        simp only [List.mem_cons, List.mem_append, Event.query.injEq,
          List.mem_map] at h
        rcases h with ⟨_, hp⟩ | ⟨t, _, ht⟩ | h
        · exact ⟨ms, hp⟩
        · cases ht
        · exact ih (iter + 1)
            (ms ++ [⟨"assistant", MsgContent.ofSegments segs⟩,
              ⟨"user", MsgContent.ofToolResults (runToolCalls ct b segs)⟩])
            mem it p h

/-- C8 (amended: with no session the `status` command reports that the bot
is not connected to Sentry, rather than a zero tool count): with the gateway
handshake failed, `ask` still runs the conversation loop and every LLM query
of the run carries no tools field at all, a text-only first response is
returned as the answer, and `status` reports the not-connected message. -/
theorem claim_C8 (llm : LLM) (ct : CallTool) (stools : List ToolDescriptor)
    (now : Nat) (mem : List MemTurn) (userMessage : String) :
    prepareTools false stools = []
    ∧ (∀ (it : Nat) (p : ClaudeParams),
        Event.query it p ∈ (ask_claude_with_memory llm ct false stools now mem
          userMessage).events → p.tools = none)
    ∧ (∀ segs : List Segment,
        llm (mkParams (initialMessages now mem userMessage) [] systemPrompt) =
          Except.ok segs →
        (ask_claude_with_memory llm ct false stools now mem
          userMessage).result =
          (if finalText segs = "" then fallbackMessage else finalText segs))
    ∧ status false stools = "❌ Not connected to Sentry" := by
  refine ⟨rfl, ?_, ?_, rfl⟩
  · intro it p h
    obtain ⟨ms, rfl⟩ := askLoop_query_tools llm ct false [] systemPrompt now
      maxIterations 0 (initialMessages now mem userMessage)
      (add_to_memory (get_conversation_history now mem).1
        ⟨"user", userMessage, now⟩) it p h
    rfl
  · intro segs hllm
    show (askLoopAux llm ct false (prepareTools false stools) systemPrompt now
      maxIterations 0 (initialMessages now mem userMessage)
      (add_to_memory (get_conversation_history now mem).1
        ⟨"user", userMessage, now⟩)).result = _
    rw [show prepareTools false stools = [] from rfl,
      show maxIterations = 9 + 1 from rfl,
      askLoop_final llm ct false [] systemPrompt now 9 0
        (initialMessages now mem userMessage)
        (add_to_memory (get_conversation_history now mem).1
          ⟨"user", userMessage, now⟩) segs hllm (toolUses_false segs)]

/-- C8 counterexample: with no session, `status` does not report a zero tool
count — it produces the not-connected message, not the counting message with
count 0. -/
theorem claim_C8_counterexample :
    status false [] = "❌ Not connected to Sentry"
    ∧ status false [] ≠ "✅ Connected to Sentry with 0 tools available" :=
  ⟨rfl, by decide⟩

set_option maxRecDepth 100000 in
/-- C8 witness: a session-absent run with a text-only LLM answer. -/
theorem claim_C8_witness :
    llmTextOnly (mkParams (initialMessages 0 [] "hi") [] systemPrompt) =
      Except.ok [Segment.text "The issue is already resolved."]
    ∧ Event.query 1 (mkParams (initialMessages 0 [] "hi") [] systemPrompt) ∈
        (ask_claude_with_memory llmTextOnly ctOk false [] 0 [] "hi").events
    ∧ (mkParams (initialMessages 0 [] "hi") [] systemPrompt).tools = none
    ∧ (ask_claude_with_memory llmTextOnly ctOk false [] 0 [] "hi").result =
        (if finalText [Segment.text "The issue is already resolved."] = ""
          then fallbackMessage
          else finalText [Segment.text "The issue is already resolved."]) := by
  have hmem : Event.query 1
      (mkParams (initialMessages 0 [] "hi") [] systemPrompt) ∈
      (ask_claude_with_memory llmTextOnly ctOk false [] 0 [] "hi").events := by
    decide
  exact ⟨rfl, hmem,
    (claim_C8 llmTextOnly ctOk [] 0 [] "hi").2.1 1 _ hmem,
    (claim_C8 llmTextOnly ctOk [] 0 [] "hi").2.2.1 _ rfl⟩

/-- `message.content.startswith(self.command_prefix)` on character lists. -/
def pyStartsWith (s pre : String) : Bool := pre.data.isPrefixOf s.data

/-- ASCII whitespace for `str.strip()`. -/
def isSpaceChar (c : Char) : Bool :=
  c == ' ' || c == '\t' || c == '\n' || c == '\r'

/-- Python `str.strip()`: remove whitespace from both ends. -/
def pyStrip (s : String) : String :=
  String.mk (((s.data.dropWhile isSpaceChar).reverse.dropWhile
    isSpaceChar).reverse)

/-- Python `str.replace(old, new)`: replace all non-overlapping occurrences
left to right; the fuel argument (instantiated with the input length) makes
the recursion structural. -/
def replaceChars : Nat → List Char → List Char → List Char → List Char
  | 0, _, _, cs => cs
  | fuel + 1, pat, rep, cs =>
    match cs with
    | [] => []
    | c :: rest =>
      if pat.isPrefixOf cs && !pat.isEmpty then
        rep ++ replaceChars fuel pat rep (cs.drop pat.length)
      else c :: replaceChars fuel pat rep rest

/-- `content.replace(f'<@{self.user.id}>', '')` and friends. -/
def pyReplace (s pat rep : String) : String :=
  String.mk (replaceChars s.data.length pat.data rep.data s.data)

/-- The normalized inbound Discord message: author-is-self flag,
`message.guild` (absent for direct messages) with its id, the text, the
`self.user.mentioned_in(message)` flag, and whether the channel is a
`DMChannel`. -/
structure InboundMessage where
  authorIsSelf : Bool
  guildId : Option Nat
  content : String
  mentionsBot : Bool
  isDMChannel : Bool
deriving DecidableEq, Repr

/-- What `on_message` does with a message: nothing at all, commands
processing only, or an implicit `ask` (reply) with the given content. -/
inductive BotAction where
  | ignored
  | commandsOnly
  | reply (content : String)
deriving DecidableEq, Repr

/-- `SentryBot.on_message`: skip own messages; evaluate
`int(message.guild.id) != int(os.getenv("DISCORD_SERVER_ID"))` — which
raises `AttributeError` when `message.guild` is `None`, as it is for every
direct message — and ignore other guilds; process commands; then, for a
non-command that mentions the bot or is a DM, strip the mention token, fall
back to "Hello!" when empty, and reply via `ask_claude_with_memory`. -/
def on_message (botUserId serverId : Nat) (m : InboundMessage) :
    Except String BotAction :=
  if m.authorIsSelf then Except.ok BotAction.ignored
  else
    match m.guildId with
    | none => Except.error "AttributeError: NoneType has no attribute id"
    | some gid =>
      if gid ≠ serverId then Except.ok BotAction.ignored
      else if pyStartsWith m.content "!" then Except.ok BotAction.commandsOnly
      else if m.mentionsBot || m.isDMChannel then
        Except.ok (BotAction.reply
          (if pyStrip (pyReplace m.content
              ("<@" ++ toString botUserId ++ ">") "") = "" then "Hello!"
            else pyStrip (pyReplace m.content
              ("<@" ++ toString botUserId ++ ">") "")))
      else Except.ok BotAction.commandsOnly

/-- C9: the mention path and the guild filter behave as claimed, but every
direct message crashes with `AttributeError` before any processing (the
guild filter dereferences `message.guild.id` and `message.guild` is `None`
in DMs), so no DM ever reaches the conversation loop or gets a reply. -/
theorem claim_C9 :
    on_message 42 99 ⟨false, none, "hello there", false, true⟩ =
      Except.error "AttributeError: NoneType has no attribute id"
    ∧ on_message 42 99 ⟨false, some 99, "<@42> whats up", true, false⟩ =
        Except.ok (BotAction.reply "whats up")
    ∧ on_message 42 99 ⟨false, some 7, "<@42> whats up", true, false⟩ =
        Except.ok BotAction.ignored
    ∧ on_message 42 99 ⟨false, some 99, "<@42>", true, false⟩ =
        Except.ok (BotAction.reply "Hello!") := by
  refine ⟨rfl, rfl, rfl, rfl⟩
